import Mathlib

/-!
Verification of the post-processing and evaluation core of a river
temperature/discharge prediction pipeline (`postproc_utils.py`,
`predict.py`).

Modelling conventions:
* Floating-point data cells are modelled as `Val := Option ℚ`: `none`
  stands for the IEEE NaN "missing value" sentinel, `some q` for an
  ordinary finite value.  Arithmetic on cells propagates `none` exactly
  as NaN propagates through numpy arithmetic.
* A division by zero (which in numpy produces a non-finite float, NaN
  here since every such division in this code is `0/0`) is modelled as
  `none`; a result that is a genuine real number (an `np.sqrt`) lives in
  `Option ℝ`.
* pandas `DataFrame`s are modelled as lists of rows.  Functions that
  mutate their argument in place (`inplace=True`, column assignment) are
  modelled in state-passing style: `f_st` returns
  `(state of the caller's frame after the call, returned value)`.
* File reading/writing is out of scope; the pure computation between the
  reads and the writes is modelled, and the written content/filename is
  returned as data.
-/

/-- A data cell: `none` is NaN (missing), `some q` a finite value. -/
abbrev Val : Type := Option ℚ

/-- `np.isnan` on a cell. -/
def Val.isnan (v : Val) : Bool := v.isNone

/-- NaN-propagating addition, as numpy float addition. -/
def vadd (a b : Val) : Val :=
  match a, b with
  | some x, some y => some (x + y)
  | _, _ => none

/-- NaN-propagating subtraction, as numpy float subtraction. -/
def vsub (a b : Val) : Val :=
  match a, b with
  | some x, some y => some (x - y)
  | _, _ => none

/-- NaN-propagating squaring (`** 2`). -/
def vsq (a : Val) : Val := a.map (fun x => x * x)

/-- `np.sum` over an array: NaN anywhere makes the sum NaN. -/
def vsum (l : List Val) : Val := l.foldr vadd (some 0)

/-- `np.nansum`: missing entries count as 0. -/
def nansum (l : List Val) : ℚ := (l.map (fun v => v.getD 0)).sum

/-- `np.sum(~np.isnan(l))`: the number of non-NaN entries. -/
def nonNanCount (l : List Val) : ℕ := l.countP (fun v => !v.isnan)

/-- The list of the non-NaN values of a cell list. -/
def obsVals (l : List Val) : List ℚ := l.filterMap id

/-- `np.nanmean`: mean of the non-NaN entries, NaN when there are none. -/
def nanmean (l : List Val) : Val :=
  if nonNanCount l = 0 then none
  else some (nansum l / (nonNanCount l : ℚ))

/-- `rmse_masked(y_true, y_pred)` from `postproc_utils.py`:
count the non-NaN observations, replace the error by 0 where the
observation is NaN (`np.where(np.isnan(y_true), 0, y_pred - y_true)`),
sum the squares and take `sqrt(sum / count)`.  A NaN sum gives NaN, and
`count = 0` (only reachable with sum `0`, hence `0/0` in floats) gives
NaN, both modelled `none`. -/
noncomputable def rmse_masked (y_true y_pred : List Val) : Option ℝ :=
  let num_y_true := nonNanCount y_true
  let zero_or_error :=
    List.zipWith (fun t p => if t.isnan then some 0 else vsub p t) y_true y_pred
  match vsum (zero_or_error.map vsq) with
  | none => none
  | some s =>
      if num_y_true = 0 then none
      else some (Real.sqrt ((s : ℝ) / (num_y_true : ℝ)))

/-- `nse(y_true, y_pred)` from `postproc_utils.py`:
`1 - nansum((y_true-y_pred)**2) / nansum((y_true-nanmean(y_true))**2)`.
A zero denominator (a non-finite float result in numpy) is modelled
`none`. -/
def nse (y_true y_pred : List Val) : Option ℚ :=
  let q_mean := nanmean y_true
  let numerator := nansum ((List.zipWith vsub y_true y_pred).map vsq)
  let denominator := nansum (y_true.map (fun t => vsq (vsub t q_mean)))
  if denominator = 0 then none else some (1 - numerator / denominator)

/-- The masked RMSE exactly as the specification words it: `n` the count
of non-missing observations, each position contributing `(pred-obs)^2`
when the observation is present and `0` otherwise, result
`sqrt(S / n)` (NaN, i.e. `none`, when `n = 0`).  The predictions are
NaN-free by type. -/
noncomputable def rmse_masked_spec (y_true : List Val) (y_pred : List ℚ) : Option ℝ :=
  let n := nonNanCount y_true
  let S : ℚ := (List.zipWith
    (fun t p => match t with | some tv => (p - tv) ^ 2 | none => 0) y_true y_pred).sum
  if n = 0 then none else some (Real.sqrt ((S : ℝ) / (n : ℝ)))

/-- The mean of the non-missing observations, as the specification words
it (junk value `0` when there are none; the theorems only use it when at
least one observation is present). -/
def mean_obs_spec (y_true : List Val) : ℚ :=
  (obsVals y_true).sum / ((obsVals y_true).length : ℚ)

/-- The NSE numerator as the specification words it: the sum of
`(obs - pred)^2` over the positions with a non-missing observation. -/
def nse_numerator_spec (y_true : List Val) (y_pred : List ℚ) : ℚ :=
  (List.zipWith
    (fun t p => match t with | some tv => (tv - p) ^ 2 | none => 0) y_true y_pred).sum

/-- The NSE denominator as the specification words it: the sum of
`(obs - mean_obs)^2` over the positions with a non-missing
observation. -/
def nse_denominator_spec (y_true : List Val) : ℚ :=
  ((obsVals y_true).map (fun tv => (tv - mean_obs_spec y_true) ^ 2)).sum

/-- A row of the predictions table: columns `date`, `seg_id_nat`,
`temp_c`, `discharge_cms` (the two value columns live in `ℝ` because
the rescaler may apply `exp`). -/
structure PredRow where
  date : ℤ
  seg_id_nat : ℤ
  temp_c : ℝ
  discharge_cms : ℝ

/-- `post_process(y_pred, dates, ids)`: flatten the `[batch, seq, k]`
arrays batch-major (`np.reshape` to `[batch*seq, k]` is `List.join` row
wise) and put the columns side by side into one table.  In a prediction
row, entry 0 is `temp_c` and entry 1 is `discharge_cms`; the date and id
arrays carry their value at entry 0. -/
def post_process (y_pred : List (List (List ℝ))) (dates ids : List (List (List ℤ))) :
    List PredRow :=
  (((y_pred.flatten).zip (dates.flatten)).zip (ids.flatten)).map
    (fun r => { date := r.1.2.getD 0 0, seg_id_nat := r.2.getD 0 0,
                temp_c := r.1.1.getD 0 0, discharge_cms := r.1.1.getD 1 0 })

/-- `unscale_output(y_scl, y_std, y_mean, logged_q)` in state-passing
style.  The column assignment `y_scl[data_cols] = yscl_data*y_std+y_mean`
and the subsequent `np.exp` mutate the caller's frame, and the function
returns that same (mutated) frame: the first component is the caller's
frame after the call, the second the returned value.  `y_std`/`y_mean`
pair the `(temp_c, discharge_cms)` statistics. -/
noncomputable def unscale_output_st (y_scl : List PredRow) (y_std y_mean : ℝ × ℝ)
    (logged_q : Bool) : List PredRow × List PredRow :=
  let unscaled := y_scl.map (fun r =>
    { r with temp_c := r.temp_c * y_std.1 + y_mean.1,
             discharge_cms := r.discharge_cms * y_std.2 + y_mean.2 })
  let final := if logged_q then
    unscaled.map (fun r => { r with discharge_cms := Real.exp r.discharge_cms })
  else unscaled
  (final, final)

/-- The value `unscale_output` returns. -/
noncomputable def unscale_output (y_scl : List PredRow) (y_std y_mean : ℝ × ℝ)
    (logged_q : Bool) : List PredRow :=
  (unscale_output_st y_scl y_std y_mean logged_q).2

/-- Rows sorted ascending by date (`df.set_index('date')` followed by
`df.sort_index()`), for an arbitrary row type with a date accessor. -/
def sortByDate (dateOf : α → ℤ) (df : List α) : List α :=
  List.insertionSort (fun a b => dateOf a ≤ dateOf b) df

/-- `take_first_half(df)` in state-passing style.  `set_index` and
`sort_index` run with `inplace=True`, so after the call the caller's
frame holds the rows sorted by date (with the date column moved into the
index); the returned value is the slice `df.loc[:halfway_date]` of the
sorted frame, where `halfway_date = unique_dates[len(unique_dates)/2]`
over the sorted distinct dates.  An empty frame makes the indexing fail
(`none`). -/
def take_first_half_st (dateOf : α → ℤ) (df : List α) : List α × Option (List α) :=
  let sorted := sortByDate dateOf df
  let unique_dates := (sorted.map dateOf).dedup
  match unique_dates[unique_dates.length / 2]? with
  | none => (sorted, none)
  | some halfway => (sorted, some (sorted.filter (fun r => dateOf r ≤ halfway)))

/-- The value `take_first_half` returns. -/
def take_first_half (dateOf : α → ℤ) (df : List α) : Option (List α) :=
  (take_first_half_st dateOf df).2

/-- The ascending-sorted list of the distinct dates of a table (the
specification's description of the halfway boundary refers to its entry
at index `⌊count/2⌋`). -/
def uniqueSortedDates (dateOf : α → ℤ) (df : List α) : List ℤ :=
  List.insertionSort (fun a b => a ≤ b) ((df.map dateOf).dedup)

/-- A key of the joined tables: `(date, seg_id_nat)`. -/
abbrev JoinKey : Type := ℤ × ℤ

/-- A row of a joined table: key, `pred` column, `obs` column. -/
abbrev JoinedRow : Type := JoinKey × ℚ × Val

/-- Index lookup in the observations frame (the specification takes the
`(date, seg_id_nat)` keys to be unique); a key that is absent reads as
missing, exactly like a present-but-NaN observation. -/
def lookupObs (k : JoinKey) : List (JoinKey × Val) → Val
  | [] => none
  | (k2, v) :: rest => if k = k2 then v else lookupObs k rest

/-- The pure core of `fmt_preds_obs`: `preds.join(obs)` on the
`['date', 'seg_id_nat']` index, a left join that keeps one output row
per prediction row, its `pred` value beside the observation found under
its key (missing when absent). -/
def fmt_preds_obs (preds : List (JoinKey × ℚ)) (obs : List (JoinKey × Val)) :
    List JoinedRow :=
  preds.map (fun kp => (kp.1, kp.2, lookupObs kp.1 obs))

/-- The `pred` column of a joined table, as a NaN-free cell list. -/
def predCol (df : List JoinedRow) : List Val := df.map (fun r => some r.2.1)

/-- The `obs` column of a joined table. -/
def obsCol (df : List JoinedRow) : List Val := df.map (fun r => r.2.2)

/-- `calc_reach_specific_metrics(df)`: when the group holds more than 10
non-missing observations (`df['obs'].count() > 10`), the pair
`(rmse_masked(obs, pred), nse(obs, pred))`; otherwise `(NaN, NaN)`. -/
noncomputable def calc_reach_specific_metrics (df : List JoinedRow) :
    Option ℝ × Option ℚ :=
  if 10 < nonNanCount (obsCol df) then
    (rmse_masked (obsCol df) (predCol df), nse (obsCol df) (predCol df))
  else (none, none)

/-- A JSON value of the metrics record: the code stores Python strings,
a faithful reimplementation of the claim would store numbers. -/
inductive JsonVal : Type where
  | jstr : String → JsonVal
  | jnum : ℝ → JsonVal

/-- The metrics file path `f'{outdir}{tag}_metrics{run_tag}.json'`. -/
def metricsFileName (outdir tag run_tag : String) : String :=
  outdir ++ tag ++ "_metrics" ++ run_tag ++ ".json"

/-- The pure core of `calc_metrics`: from the two joined tables, the
four metrics and the persisted record.  `fstrR`/`fstrQ` model Python's
`str` on a float scalar (`metrics_data = {'rmse_temp': str(rmse_temp),
...}`): every value of the record is the *string* rendering of the
metric.  Returns the output file name and the record. -/
noncomputable def calc_metrics (fstrR : Option ℝ → String) (fstrQ : Option ℚ → String)
    (temp_data flow_data : List JoinedRow) (outdir tag run_tag : String) :
    String × List (String × JsonVal) :=
  let rmse_temp := rmse_masked (obsCol temp_data) (predCol temp_data)
  let rmse_flow := rmse_masked (obsCol flow_data) (predCol flow_data)
  let nse_temp := nse (obsCol temp_data) (predCol temp_data)
  let nse_flow := nse (obsCol flow_data) (predCol flow_data)
  (metricsFileName outdir tag run_tag,
   [("rmse_temp", JsonVal.jstr (fstrR rmse_temp)),
    ("rmse_flow", JsonVal.jstr (fstrR rmse_flow)),
    ("nse_temp", JsonVal.jstr (fstrQ nse_temp)),
    ("nse_flow", JsonVal.jstr (fstrQ nse_flow))])

/-- The value a JSON record holds under a key. -/
def recordVal : List (String × JsonVal) → String → Option JsonVal
  | [], _ => none
  | (k, v) :: rest, key => if k = key then some v else recordVal rest key

/-- The slice of the input archive `predict` reads: model inputs for the
two periods, their date and id arrays, and the training-period
rescaling statistics.  (`dist_matrix` only supplies `batch_size`, which
does not change the predicted values; the trained model is the external
function `trained_model`.) -/
structure IOData (χ : Type) where
  x_trn : χ
  x_tst : χ
  dates_trn : List (List (List ℤ))
  dates_tst : List (List (List ℤ))
  ids_trn : List (List (List ℤ))
  ids_tst : List (List (List ℤ))
  y_trn_obs_std : ℝ × ℝ
  y_trn_obs_mean : ℝ × ℝ

/-- The predictions file path `f'{outdir}{tag}_preds{run_tag}.feather'`. -/
def predsFileName (outdir tag run_tag : String) : String :=
  outdir ++ tag ++ "_preds" ++ run_tag ++ ".feather"

/-- The `ValueError` message `predict` raises on a bad tag. -/
def tagErrorMsg : String := "tag arg needs to be \"trn\" or \"tst\""

/-- `predict(trained_model, io_data, half_tst, tag, outdir, run_tag,
logged_q)`: validate the tag first (raising `ValueError`, the `error`
branch, before any prediction or post-processing), then run the model,
tabulate, unscale, optionally keep the first half of the test period,
and write the predictions file.  The result is the written file's name
and content; an exception is an `error` carrying the message, and on
that path no output value exists. -/
noncomputable def predict (trained_model : χ → List (List (List ℝ))) (io_data : IOData χ)
    (half_tst : Bool) (tag : String) (outdir run_tag : String) (logged_q : Bool) :
    Except String (String × List PredRow) :=
  if tag = "trn" ∨ tag = "tst" then
    let y_pred := trained_model (if tag = "trn" then io_data.x_trn else io_data.x_tst)
    let y_pred_pp := post_process y_pred
      (if tag = "trn" then io_data.dates_trn else io_data.dates_tst)
      (if tag = "trn" then io_data.ids_trn else io_data.ids_tst)
    let y_unscaled := unscale_output y_pred_pp io_data.y_trn_obs_std
      io_data.y_trn_obs_mean logged_q
    if half_tst ∧ tag = "tst" then
      match take_first_half PredRow.date y_unscaled with
      | none => Except.error "single positional indexer is out-of-bounds"
      | some df => Except.ok (predsFileName outdir tag run_tag, df)
    else Except.ok (predsFileName outdir tag run_tag, y_unscaled)
  else Except.error tagErrorMsg

/-! Theorems. -/

@[simp] theorem vsum_nil : vsum [] = some 0 := rfl

@[simp] theorem vsum_cons (a : Val) (l : List Val) : vsum (a :: l) = vadd a (vsum l) := rfl

@[simp] theorem vadd_some (x y : ℚ) : vadd (some x) (some y) = some (x + y) := rfl

@[simp] theorem vadd_none_left (b : Val) : vadd none b = none := rfl

@[simp] theorem vsub_some (x y : ℚ) : vsub (some x) (some y) = some (x - y) := rfl

@[simp] theorem vsub_none_left (b : Val) : vsub none b = none := rfl

@[simp] theorem vsub_none_right (a : Val) : vsub a none = none := by
  cases a <;> rfl

@[simp] theorem vsq_some (x : ℚ) : vsq (some x) = some (x * x) := rfl

@[simp] theorem vsq_none : vsq none = none := rfl

@[simp] theorem isnan_none : Val.isnan none = true := rfl

@[simp] theorem isnan_some (x : ℚ) : Val.isnan (some x) = false := rfl

@[simp] theorem nansum_nil : nansum [] = 0 := rfl

@[simp] theorem nansum_cons (a : Val) (l : List Val) :
    nansum (a :: l) = a.getD 0 + nansum l := rfl

@[simp] theorem nonNanCount_nil : nonNanCount [] = 0 := rfl

@[simp] theorem nonNanCount_cons_none (l : List Val) :
    nonNanCount (none :: l) = nonNanCount l := by
  simp [nonNanCount]

@[simp] theorem nonNanCount_cons_some (x : ℚ) (l : List Val) :
    nonNanCount (some x :: l) = nonNanCount l + 1 := by
  simp [nonNanCount]

theorem vsum_zeroOrError (t : List Val) (p : List ℚ) :
    vsum ((List.zipWith (fun tv pv => if tv.isnan then some 0 else vsub pv tv)
        t (p.map some)).map vsq)
      = some ((List.zipWith
          (fun tv pv => match tv with | some x => (pv - x) ^ 2 | none => 0) t p).sum) := by
  induction t generalizing p with
  | nil => simp
  | cons a t ih =>
    cases p with
    | nil => simp
    | cons b ps =>
      cases a with
      | none => simp [ih ps]
      | some tv => simp [ih ps, sq]

/-- C1.  For same-length sequences with NaN-free predictions,
`rmse_masked` returns `sqrt(S / n)` with `n` the count of non-NaN
observations and `S` the sum of the squared errors over the non-NaN
positions (0 at masked positions), exactly as `rmse_masked_spec` words
the specification's algorithm. -/
theorem rmse_masked_matches_spec (y_true : List Val) (y_pred : List ℚ)
    (hlen : y_pred.length = y_true.length) :
    rmse_masked y_true (y_pred.map some) = rmse_masked_spec y_true y_pred := by
  simp only [rmse_masked, rmse_masked_spec]
  rw [vsum_zeroOrError]

/-- C1 witness: the specification's worked example
`y_true = [1, NaN, 3]`, `y_pred = [2, 5, 3]` gives `sqrt(1/2)`. -/
theorem rmse_masked_matches_spec_witness :
    (([2, 5, 3] : List ℚ).length = ([some 1, none, some 3] : List Val).length)
    ∧ rmse_masked [some 1, none, some 3] (([2, 5, 3] : List ℚ).map some)
        = some (Real.sqrt (1 / 2)) := by
  refine ⟨rfl, ?_⟩
  rw [rmse_masked_matches_spec [some 1, none, some 3] [2, 5, 3] rfl]
  unfold rmse_masked_spec
  norm_num [nonNanCount, Val.isnan]

theorem zeroOrError_congr (t p1 p2 : List Val)
    (h1 : p1.length = t.length) (h2 : p2.length = t.length)
    (hagree : ∀ i, i < t.length → (t[i]?.getD none) ≠ none → p1[i]? = p2[i]?) :
    List.zipWith (fun tv pv => if tv.isnan then some 0 else vsub pv tv) t p1
      = List.zipWith (fun tv pv => if tv.isnan then some 0 else vsub pv tv) t p2 := by
  induction t generalizing p1 p2 with
  | nil => simp
  | cons a t ih =>
    cases p1 with
    | nil => simp at h1
    | cons b1 q1 =>
      cases p2 with
      | nil => simp at h2
      | cons b2 q2 =>
        have htail :
            List.zipWith (fun tv pv => if tv.isnan then some 0 else vsub pv tv) t q1
              = List.zipWith (fun tv pv => if tv.isnan then some 0 else vsub pv tv) t q2 := by
          refine ih q1 q2 (by simpa using h1) (by simpa using h2) ?_
          intro i hi hobs
          have := hagree (i + 1) (by simpa using Nat.succ_lt_succ hi) (by simpa using hobs)
          simpa using this
        cases a with
        | none => simpa using htail
        | some x =>
          have hhead : b1 = b2 := by
            have := hagree 0 (by simp) (by simp)
            simpa using this
          simp [hhead, htail]

/-- C10.  Two NaN-possible prediction sequences that agree at every
position where the observation is non-NaN give the same masked RMSE:
predicted values at masked positions never influence `rmse_masked`. -/
theorem rmse_masked_ignores_masked (y_true p1 p2 : List Val)
    (h1 : p1.length = y_true.length) (h2 : p2.length = y_true.length)
    (hagree : ∀ i, i < y_true.length → (y_true[i]?.getD none) ≠ none → p1[i]? = p2[i]?) :
    rmse_masked y_true p1 = rmse_masked y_true p2 := by
  simp only [rmse_masked]
  rw [zeroOrError_congr y_true p1 p2 h1 h2 hagree]

/-- C10 witness: a NaN prediction at the masked position 1 leaves the
masked RMSE unchanged. -/
theorem rmse_masked_ignores_masked_witness :
    rmse_masked [some 1, none] [some 2, some 5] = rmse_masked [some 1, none] [some 2, none] :=
  rmse_masked_ignores_masked [some 1, none] [some 2, some 5] [some 2, none]
    rfl rfl (by decide)

@[simp] theorem obsVals_nil : obsVals [] = [] := rfl

@[simp] theorem obsVals_cons_none (l : List Val) : obsVals (none :: l) = obsVals l := rfl

@[simp] theorem obsVals_cons_some (x : ℚ) (l : List Val) :
    obsVals (some x :: l) = x :: obsVals l := rfl

theorem obsVals_length (l : List Val) : (obsVals l).length = nonNanCount l := by
  induction l with
  | nil => simp
  | cons a l ih => cases a <;> simp [ih]

theorem nansum_eq_obsVals_sum (l : List Val) : nansum l = (obsVals l).sum := by
  induction l with
  | nil => simp
  | cons a l ih => cases a <;> simp [ih]

theorem nanmean_eq_mean_obs (l : List Val) (h : nonNanCount l ≠ 0) :
    nanmean l = some (mean_obs_spec l) := by
  rw [nanmean, if_neg h, mean_obs_spec, nansum_eq_obsVals_sum, obsVals_length]

theorem nse_numerator_code_eq (t : List Val) (p : List ℚ) :
    nansum ((List.zipWith vsub t (p.map some)).map vsq) = nse_numerator_spec t p := by
  simp only [nse_numerator_spec]
  induction t generalizing p with
  | nil => simp
  | cons a t ih =>
    cases p with
    | nil => simp
    | cons b ps =>
      cases a with
      | none => simp [ih ps]
      | some tv => simp [ih ps, sq]

theorem nse_denominator_code_eq (t : List Val) (m : ℚ) :
    nansum (t.map (fun v => vsq (vsub v (some m))))
      = ((obsVals t).map (fun tv => (tv - m) ^ 2)).sum := by
  induction t with
  | nil => simp
  | cons a t ih => cases a <;> simp [ih, sq]

/-- C2.  For same-length sequences with NaN-free predictions and a
nonzero denominator, `nse` returns `1 - numerator/denominator` with the
numerator, denominator and observed mean exactly as the specification
words them (sums over the non-NaN observation positions, mean of the
non-NaN observations). -/
theorem nse_matches_spec (y_true : List Val) (y_pred : List ℚ)
    (hlen : y_pred.length = y_true.length)
    (hden : nse_denominator_spec y_true ≠ 0) :
    nse y_true (y_pred.map some)
      = some (1 - nse_numerator_spec y_true y_pred / nse_denominator_spec y_true) := by
  have hcnt : nonNanCount y_true ≠ 0 := by
    intro h0
    apply hden
    have : obsVals y_true = [] := by
      have := obsVals_length y_true
      rw [h0] at this
      exact List.length_eq_zero.mp this
    simp [nse_denominator_spec, this]
  simp only [nse]
  rw [nanmean_eq_mean_obs y_true hcnt, nse_numerator_code_eq, nse_denominator_code_eq]
  have hd2 : ((obsVals y_true).map (fun tv => (tv - mean_obs_spec y_true) ^ 2)).sum
      = nse_denominator_spec y_true := rfl
  rw [hd2, if_neg hden]

/-- C2 witness: the specification's worked examples, a perfect fit
(`NSE = 1`) and the constant mean prediction (`NSE = 0`). -/
theorem nse_matches_spec_witness :
    nse [some 1, some 2, some 3] (([1, 2, 3] : List ℚ).map some) = some 1
    ∧ nse [some 1, some 2, some 3] (([2, 2, 2] : List ℚ).map some) = some 0 := by
  have hden : nse_denominator_spec [some 1, some 2, some 3] ≠ 0 := by
    norm_num [nse_denominator_spec, mean_obs_spec]
  constructor
  · rw [nse_matches_spec [some 1, some 2, some 3] [1, 2, 3] rfl hden]
    norm_num [nse_numerator_spec, nse_denominator_spec, mean_obs_spec]
  · rw [nse_matches_spec [some 1, some 2, some 3] [2, 2, 2] rfl hden]
    norm_num [nse_numerator_spec, nse_denominator_spec, mean_obs_spec]

/-- C3.  A per-segment group gets its `(rmse, nse)` pair computed by
`rmse_masked` and `nse` exactly when it holds strictly more than 10
non-missing observations, and `(NaN, NaN)` otherwise. -/
theorem calc_reach_specific_metrics_threshold (df : List JoinedRow) :
    (10 < nonNanCount (obsCol df) →
      calc_reach_specific_metrics df
        = (rmse_masked (obsCol df) (predCol df), nse (obsCol df) (predCol df)))
    ∧ (nonNanCount (obsCol df) ≤ 10 →
      calc_reach_specific_metrics df = (none, none)) := by
  constructor
  · intro h
    simp [calc_reach_specific_metrics, h]
  · intro h
    simp [calc_reach_specific_metrics, not_lt.mpr h]

/-- C3 witness: a group of exactly 10 paired observations yields
`(NaN, NaN)`; a group of 11 yields the computed metrics. -/
theorem calc_reach_specific_metrics_threshold_witness :
    calc_reach_specific_metrics (List.replicate 10 (((0, 0) : JoinKey), (1 : ℚ), (some 2 : Val)))
      = (none, none)
    ∧ calc_reach_specific_metrics (List.replicate 11 (((0, 0) : JoinKey), (1 : ℚ), (some 2 : Val)))
      = (rmse_masked (obsCol (List.replicate 11 ((0, 0), 1, some 2)))
           (predCol (List.replicate 11 ((0, 0), 1, some 2))),
         nse (obsCol (List.replicate 11 ((0, 0), 1, some 2)))
           (predCol (List.replicate 11 ((0, 0), 1, some 2)))) :=
  ⟨(calc_reach_specific_metrics_threshold _).2 (by decide),
   (calc_reach_specific_metrics_threshold _).1 (by decide)⟩

/-- C5.  `unscale_output` keeps the row count, maps each variable column
through `standardized * std + mean` with that variable's statistics,
applies `exp` to `discharge_cms` exactly when `logged_q` is set (the
flag never touches `temp_c`), and leaves the other columns (`date`,
`seg_id_nat`) of every row unchanged. -/
theorem unscale_output_correct (df : List PredRow) (y_std y_mean : ℝ × ℝ) (lq : Bool) :
    (unscale_output df y_std y_mean lq).length = df.length
    ∧ ∀ i, i < df.length →
        ∃ r₁, (unscale_output df y_std y_mean lq)[i]? = some r₁
          ∧ df[i]?.map PredRow.date = some r₁.date
          ∧ df[i]?.map PredRow.seg_id_nat = some r₁.seg_id_nat
          ∧ df[i]?.map (fun r => r.temp_c * y_std.1 + y_mean.1) = some r₁.temp_c
          ∧ df[i]?.map (fun r => if lq then Real.exp (r.discharge_cms * y_std.2 + y_mean.2)
              else r.discharge_cms * y_std.2 + y_mean.2) = some r₁.discharge_cms := by
  cases lq with
  | false =>
    refine ⟨by simp [unscale_output, unscale_output_st], ?_⟩
    intro i hi
    have hget : df[i]? = some df[i] := List.getElem?_eq_getElem hi
    refine ⟨⟨df[i].date, df[i].seg_id_nat, df[i].temp_c * y_std.1 + y_mean.1,
      df[i].discharge_cms * y_std.2 + y_mean.2⟩, ?_, ?_, ?_, ?_, ?_⟩ <;>
      simp [unscale_output, unscale_output_st, List.getElem?_map, hget]
  | true =>
    refine ⟨by simp [unscale_output, unscale_output_st], ?_⟩
    intro i hi
    have hget : df[i]? = some df[i] := List.getElem?_eq_getElem hi
    refine ⟨⟨df[i].date, df[i].seg_id_nat, df[i].temp_c * y_std.1 + y_mean.1,
      Real.exp (df[i].discharge_cms * y_std.2 + y_mean.2)⟩, ?_, ?_, ?_, ?_, ?_⟩ <;>
      simp [unscale_output, unscale_output_st, List.getElem?_map, hget]

/-- C5 witness: with `mean = (10, 0)`, `std = (2, 1)` and the log flag
off, the standardized row `(1, 1)` unscales to `(12, 1)`. -/
theorem unscale_output_correct_witness :
    (unscale_output [⟨0, 0, 1, 1⟩] (2, 1) (10, 0) false).length = 1
    ∧ ∃ r₁, (unscale_output [⟨0, 0, 1, 1⟩] (2, 1) (10, 0) false)[0]? = some r₁
        ∧ r₁.temp_c = 12 ∧ r₁.discharge_cms = 1 := by
  obtain ⟨hlen, hpt⟩ := unscale_output_correct [⟨0, 0, 1, 1⟩] (2, 1) (10, 0) false
  obtain ⟨r₁, hr, _, _, ht, hq⟩ := hpt 0 (by norm_num)
  refine ⟨hlen, r₁, hr, ?_, ?_⟩
  · have : some ((1 : ℝ) * 2 + 10) = some r₁.temp_c := by simpa using ht
    have := Option.some.inj this
    rw [← this]; norm_num
  · have : some ((1 : ℝ) * 1 + 0) = some r₁.discharge_cms := by simpa using hq
    have := Option.some.inj this
    rw [← this]; norm_num

theorem lookupObs_not_mem (k : JoinKey) (obs : List (JoinKey × Val))
    (h : k ∉ obs.map Prod.fst) : lookupObs k obs = none := by
  induction obs with
  | nil => rfl
  | cons a rest ih =>
    simp only [List.map_cons, List.mem_cons, not_or] at h
    simp only [lookupObs, if_neg h.1]
    exact ih h.2

/-- C6.  The join of `fmt_preds_obs` on `(date, seg_id_nat)` keeps
exactly the prediction rows: projecting the output onto (key, pred)
gives back the predictions table; a prediction key absent from the
observations appears with a missing `obs` and its `pred` retained; a key
absent from the predictions never appears in the output (rows present
only in the observations are dropped). -/
theorem fmt_preds_obs_left_join (preds : List (JoinKey × ℚ)) (obs : List (JoinKey × Val)) :
    ((fmt_preds_obs preds obs).map (fun r => (r.1, r.2.1)) = preds)
    ∧ (∀ kp ∈ preds, kp.1 ∉ obs.map Prod.fst →
        (kp.1, kp.2, (none : Val)) ∈ fmt_preds_obs preds obs)
    ∧ (∀ k : JoinKey, k ∉ preds.map Prod.fst →
        k ∉ (fmt_preds_obs preds obs).map Prod.fst) := by
  refine ⟨?_, ?_, ?_⟩
  · have hcomp : ((fun r : JoinedRow => (r.1, r.2.1))
        ∘ fun kp : JoinKey × ℚ => (kp.1, kp.2, lookupObs kp.1 obs)) = id := by
      funext kp
      rfl
    simp [fmt_preds_obs, List.map_map, hcomp]
  · intro kp hkp habs
    have : (kp.1, kp.2, lookupObs kp.1 obs) ∈ fmt_preds_obs preds obs :=
      List.mem_map_of_mem _ hkp
    rwa [lookupObs_not_mem kp.1 obs habs] at this
  · intro k hk
    simpa [fmt_preds_obs, List.map_map, Function.comp] using hk

/-- C6 witness: a prediction under key `(5, 7)` with no matching
observation joins to a missing `obs` beside its retained `pred`, and the
observation-only key `(6, 7)` is absent from the output. -/
theorem fmt_preds_obs_left_join_witness :
    ((fmt_preds_obs [((5, 7), 3)] [((6, 7), some 4)]).map (fun r => (r.1, r.2.1))
        = [((5, 7), 3)])
    ∧ (((5, 7), (3 : ℚ), (none : Val)) ∈ fmt_preds_obs [((5, 7), 3)] [((6, 7), some 4)])
    ∧ ((6, 7) ∉ (fmt_preds_obs [((5, 7), 3)] [((6, 7), some 4)]).map Prod.fst) := by
  obtain ⟨h1, h2, h3⟩ := fmt_preds_obs_left_join [((5, 7), 3)] [((6, 7), some 4)]
  exact ⟨h1, h2 ((5, 7), 3) (by simp) (by decide), h3 (6, 7) (by decide)⟩

instance (dateOf : α → ℤ) : IsTotal α (fun a b => dateOf a ≤ dateOf b) :=
  ⟨fun a b => le_total (dateOf a) (dateOf b)⟩

instance (dateOf : α → ℤ) : IsTrans α (fun a b => dateOf a ≤ dateOf b) :=
  ⟨fun _ _ _ h1 h2 => le_trans h1 h2⟩

theorem sortByDate_perm (dateOf : α → ℤ) (df : List α) : (sortByDate dateOf df).Perm df :=
  List.perm_insertionSort _ _

theorem sortByDate_sorted (dateOf : α → ℤ) (df : List α) :
    List.Sorted (fun a b => dateOf a ≤ dateOf b) (sortByDate dateOf df) :=
  List.sorted_insertionSort _ _

theorem sortByDate_map_sorted (dateOf : α → ℤ) (df : List α) :
    List.Sorted (fun a b : ℤ => a ≤ b) ((sortByDate dateOf df).map dateOf) :=
  List.Pairwise.map dateOf (fun _ _ h => h) (sortByDate_sorted dateOf df)

theorem dedup_sortByDate_eq (dateOf : α → ℤ) (df : List α) :
    ((sortByDate dateOf df).map dateOf).dedup = uniqueSortedDates dateOf df := by
  apply List.eq_of_perm_of_sorted (r := fun a b : ℤ => a ≤ b)
  · refine (List.perm_ext_iff_of_nodup (List.nodup_dedup _) ?_).mpr ?_
    · exact ((List.perm_insertionSort _ _).nodup_iff).mpr (List.nodup_dedup _)
    · intro a
      simp only [List.mem_dedup, uniqueSortedDates, List.mem_insertionSort,
        ((sortByDate_perm dateOf df).map dateOf).mem_iff]
  · exact List.Pairwise.sublist (List.dedup_sublist _) (sortByDate_map_sorted dateOf df)
  · exact List.sorted_insertionSort _ _

theorem uniqueSortedDates_ne_nil (dateOf : α → ℤ) (df : List α) (h : df ≠ []) :
    uniqueSortedDates dateOf df ≠ [] := by
  intro h0
  apply h
  have hperm := List.perm_insertionSort (fun a b : ℤ => a ≤ b) ((df.map dateOf).dedup)
  rw [uniqueSortedDates] at h0
  rw [h0] at hperm
  have hd : (df.map dateOf).dedup = [] := hperm.symm.eq_nil
  have hm : df.map dateOf = [] := by
    by_contra hne2
    obtain ⟨x, hx⟩ := List.exists_mem_of_ne_nil _ hne2
    have : x ∈ (df.map dateOf).dedup := List.mem_dedup.mpr hx
    simp [hd] at this
  exact List.map_eq_nil_iff.mp hm

/-- C4.  On a non-empty table, `take_first_half` succeeds and returns
exactly the rows (as a multiset) whose date is at most the boundary,
where the boundary is the entry at index `⌊count/2⌋` of the
ascending-sorted list of the distinct dates; rows dated exactly at the
boundary are retained. -/
theorem take_first_half_correct (dateOf : α → ℤ) (df : List α) (hne : df ≠ []) :
    ∃ halfway out,
      (uniqueSortedDates dateOf df)[(uniqueSortedDates dateOf df).length / 2]? = some halfway
      ∧ take_first_half dateOf df = some out
      ∧ out.Perm (df.filter (fun r => dateOf r ≤ halfway)) := by
  have hnil : uniqueSortedDates dateOf df ≠ [] := uniqueSortedDates_ne_nil dateOf df hne
  have hpos : 0 < (uniqueSortedDates dateOf df).length := List.length_pos.mpr hnil
  have hidx : (uniqueSortedDates dateOf df).length / 2 < (uniqueSortedDates dateOf df).length :=
    Nat.div_lt_self hpos one_lt_two
  have hhalf := List.getElem?_eq_getElem hidx
  refine ⟨(uniqueSortedDates dateOf df)[(uniqueSortedDates dateOf df).length / 2],
    (sortByDate dateOf df).filter
      (fun r => dateOf r ≤ (uniqueSortedDates dateOf df)[(uniqueSortedDates dateOf df).length / 2]),
    hhalf, ?_, ?_⟩
  · simp only [take_first_half, take_first_half_st, dedup_sortByDate_eq, hhalf]
  · exact (sortByDate_perm dateOf df).filter _

/-- C4 witness: on the table with (date, payload) rows
`[(3,0), (1,1), (2,2), (1,3)]` the distinct sorted dates are `[1,2,3]`,
the boundary is the date at index 1, and the rows dated at most the
boundary are kept. -/
theorem take_first_half_correct_witness :
    ∃ halfway out,
      (uniqueSortedDates Prod.fst [((3 : ℤ), (0 : ℕ)), (1, 1), (2, 2), (1, 3)])[
          (uniqueSortedDates Prod.fst [((3 : ℤ), (0 : ℕ)), (1, 1), (2, 2), (1, 3)]).length / 2]?
        = some halfway
      ∧ take_first_half Prod.fst [((3 : ℤ), (0 : ℕ)), (1, 1), (2, 2), (1, 3)] = some out
      ∧ out.Perm ([((3 : ℤ), (0 : ℕ)), (1, 1), (2, 2), (1, 3)].filter
          (fun r => r.1 ≤ halfway)) :=
  take_first_half_correct Prod.fst [((3 : ℤ), (0 : ℕ)), (1, 1), (2, 2), (1, 3)] (by decide)

/-- C7 counterexample: on a concrete joined table whose masked RMSE is
the scalar `sqrt(0/1)`, the persisted record holds under `rmse_temp` a
JSON *string* (the `str(...)` rendering, here via the rendering function
`fun _ => "0.0"`), which is not the JSON *number* holding that scalar:
`calc_metrics` persists `str(rmse_temp)`, not the scalar itself. -/
theorem calc_metrics_record_cex :
    recordVal (calc_metrics (fun _ => "0.0") (fun _ => "1.0")
        [((0, 1), 2, some 2)] [((0, 1), 2, some 2)] "out" "tst" "").2 "rmse_temp"
      = some (JsonVal.jstr "0.0")
    ∧ (recordVal (calc_metrics (fun _ => "0.0") (fun _ => "1.0")
        [((0, 1), 2, some 2)] [((0, 1), 2, some 2)] "out" "tst" "").2 "rmse_temp"
      = some (JsonVal.jnum (Real.sqrt ((0 : ℝ) / 1))) → False) := by
  refine ⟨rfl, ?_⟩
  intro h
  rw [show recordVal (calc_metrics (fun _ => "0.0") (fun _ => "1.0")
      [((0, 1), 2, some 2)] [((0, 1), 2, some 2)] "out" "tst" "").2 "rmse_temp"
    = some (JsonVal.jstr "0.0") from rfl] at h
  simp at h

/-- C7 amended.  The record `calc_metrics` builds and persists maps each
of the four metric names to the *string rendering* (`str(...)`,
modelled by the rendering functions `fstrR`/`fstrQ`) of the scalar
computed by `rmse_masked`/`nse` on the joined columns — not to the
scalar itself — and is written to the metrics file path. -/
theorem calc_metrics_record_strings (fstrR : Option ℝ → String) (fstrQ : Option ℚ → String)
    (temp_data flow_data : List JoinedRow) (outdir tag run_tag : String) :
    (calc_metrics fstrR fstrQ temp_data flow_data outdir tag run_tag).1
        = metricsFileName outdir tag run_tag
    ∧ recordVal (calc_metrics fstrR fstrQ temp_data flow_data outdir tag run_tag).2 "rmse_temp"
        = some (JsonVal.jstr (fstrR (rmse_masked (obsCol temp_data) (predCol temp_data))))
    ∧ recordVal (calc_metrics fstrR fstrQ temp_data flow_data outdir tag run_tag).2 "rmse_flow"
        = some (JsonVal.jstr (fstrR (rmse_masked (obsCol flow_data) (predCol flow_data))))
    ∧ recordVal (calc_metrics fstrR fstrQ temp_data flow_data outdir tag run_tag).2 "nse_temp"
        = some (JsonVal.jstr (fstrQ (nse (obsCol temp_data) (predCol temp_data))))
    ∧ recordVal (calc_metrics fstrR fstrQ temp_data flow_data outdir tag run_tag).2 "nse_flow"
        = some (JsonVal.jstr (fstrQ (nse (obsCol flow_data) (predCol flow_data)))) :=
  ⟨rfl, rfl, rfl, rfl, rfl⟩

/-- C8.  `predict` validates the tag first: any tag other than `"trn"`
and `"tst"` gives the descriptive `ValueError` — whatever the model,
data and flags, so before any prediction, rescaling, splitting or file
naming, and with no output on the error path — while a valid tag never
raises that validation error. -/
theorem predict_tag_validation {χ : Type} (trained_model : χ → List (List (List ℝ)))
    (io_data : IOData χ) (half_tst : Bool) (tag outdir run_tag : String) (logged_q : Bool) :
    ((tag ≠ "trn" ∧ tag ≠ "tst") →
      predict trained_model io_data half_tst tag outdir run_tag logged_q
        = Except.error tagErrorMsg)
    ∧ ((tag = "trn" ∨ tag = "tst") →
      predict trained_model io_data half_tst tag outdir run_tag logged_q
        ≠ Except.error tagErrorMsg) := by
  constructor
  · rintro ⟨h1, h2⟩
    simp only [predict]
    rw [if_neg (by simp [h1, h2])]
  · intro hvalid
    simp only [predict]
    rw [if_pos hvalid]
    by_cases hh : half_tst ∧ tag = "tst"
    · rw [if_pos hh]
      cases htf : take_first_half PredRow.date
          (unscale_output (post_process
            (trained_model (if tag = "trn" then io_data.x_trn else io_data.x_tst))
            (if tag = "trn" then io_data.dates_trn else io_data.dates_tst)
            (if tag = "trn" then io_data.ids_trn else io_data.ids_tst))
            io_data.y_trn_obs_std io_data.y_trn_obs_mean logged_q) with
      | none => simp [tagErrorMsg]
      | some df => simp
    · rw [if_neg hh]
      simp

/-- C8 witness: the invalid tag `"foo"` yields exactly the validation
error, and the valid tag `"trn"` does not. -/
theorem predict_tag_validation_witness :
    predict (fun _ : Unit => []) ⟨(), (), [], [], [], [], (1, 1), (0, 0)⟩
        false "foo" "out" "" false = Except.error tagErrorMsg
    ∧ predict (fun _ : Unit => []) ⟨(), (), [], [], [], [], (1, 1), (0, 0)⟩
        false "trn" "out" "" false ≠ Except.error tagErrorMsg :=
  ⟨(predict_tag_validation (fun _ : Unit => []) ⟨(), (), [], [], [], [], (1, 1), (0, 0)⟩
      false "foo" "out" "" false).1 ⟨by decide, by decide⟩,
   (predict_tag_validation (fun _ : Unit => []) ⟨(), (), [], [], [], [], (1, 1), (0, 0)⟩
      false "trn" "out" "" false).2 (Or.inl rfl)⟩

/-- C9 counterexample: the operations are not pure transformations of
their input.  On the table `[(2,0), (1,1)]`, after `take_first_half`
returns, the caller's frame holds `[(1,1), (2,0)]` — the rows re-sorted
in place, not the table as received; and `unscale_output` on the
standardized row `(1, 1)` with `std = (2,1)`, `mean = (10,0)` leaves the
caller's frame rescaled, not as received. -/
theorem inplace_mutation_cex :
    (take_first_half_st Prod.fst [((2 : ℤ), (0 : ℕ)), (1, 1)]).1 = [(1, 1), (2, 0)]
    ∧ (take_first_half_st Prod.fst [((2 : ℤ), (0 : ℕ)), (1, 1)]).1
        ≠ [((2 : ℤ), (0 : ℕ)), (1, 1)]
    ∧ (unscale_output_st [⟨0, 0, 1, 1⟩] (2, 1) (10, 0) false).1 ≠ [⟨0, 0, 1, 1⟩] := by
  refine ⟨by decide, by decide, ?_⟩
  intro h
  simp only [unscale_output_st, Bool.false_eq_true, if_false, List.map_cons,
    List.map_nil, List.cons.injEq, and_true] at h
  have ht : (1 : ℝ) * 2 + 10 = 1 := congrArg PredRow.temp_c h
  norm_num at ht

/-- C9 amended.  `take_first_half` and `unscale_output` mutate the table
they receive: after the call, the caller's frame of `take_first_half`
holds its rows re-sorted by date (the date column moved into the index),
and the caller's frame of `unscale_output` is the rescaled table, which
is also the object the function returns; only the slice that
`take_first_half` returns is a fresh table. -/
theorem inplace_mutation (dateOf : α → ℤ) (df : List α) (y : List PredRow)
    (y_std y_mean : ℝ × ℝ) (lq : Bool) :
    (take_first_half_st dateOf df).1 = sortByDate dateOf df
    ∧ (unscale_output_st y y_std y_mean lq).1 = unscale_output y y_std y_mean lq := by
  constructor
  · cases h : ((sortByDate dateOf df).map dateOf).dedup[
        ((sortByDate dateOf df).map dateOf).dedup.length / 2]? <;>
      simp [take_first_half_st, h]
  · rfl
